import Mathlib

/-!
Verification of the PoeWikiTelegramBot resolver and presentation pipeline.

The Python sources (src/poewikibot/api.py, bot.py, models.py) are embedded
shallowly: Python strings become `List Char`, Python dicts (which preserve
insertion order) become association lists, and the JSON envelopes returned
by the remote wiki API become explicit input values.  Every definition
mirrors the corresponding Python code; remote responses are passed in as
data so that the pure logic of the program can be proved about.
-/

/-- Python strings are modelled as lists of characters. -/
abbrev Str := List Char

/-- Convert a Lean string literal to the `Str` model. -/
def chars (s : String) : Str := s.data

/-- A JSON "title" object (string keys to string values), in insertion order;
models the Python dicts found in the cargo responses. -/
abbrev Row := List (Str × Str)

/-- `d.get(k)` on a Python dict of strings. -/
def rowGet (r : Row) (k : Str) : Option Str :=
  (r.find? (fun p => p.1 = k)).map (fun p => p.2)

/-- Python truthiness of a string: non-empty strings are truthy. -/
def pyTruthy (s : Str) : Bool := !s.isEmpty

/-- Python truthiness of an optional string (`None` and `""` are falsy). -/
def pyTruthyOpt : Option Str → Bool
  | none => false
  | some s => pyTruthy s

/-- Python `a or b` on optional strings. -/
def pyOrOpt (a b : Option Str) : Option Str :=
  if pyTruthyOpt a then a else b

/-- Python `a or d` with a string default (as in `item_data.get("name") or "Unknown"`). -/
def pyOrStr (a : Option Str) (d : Str) : Str :=
  match a with
  | some s => if pyTruthy s then s else d
  | none => d

/-- Python `s.lower()` (character-wise, as used on item names). -/
def pyLower (s : Str) : Str := s.map Char.toLower

/-- Python `s.replace(" ", "_")` (a single-character replacement). -/
def spaceToUnderscore (s : Str) : Str :=
  s.map (fun c => if c = ' ' then '_' else c)

/-- Python `s.replace("_", " ")` (a single-character replacement). -/
def underscoreToSpace (s : Str) : Str :=
  s.map (fun c => if c = '_' then ' ' else c)

/-- Python substring test `needle in hay`. -/
def pyIn (needle hay : Str) : Bool := decide (needle <:+: hay)

/-!  ## models.py: the field catalog  -/

/-- The cargo mapping loaded from `cargo_mapping.json`: table name to its
list of field names.  An empty list models a missing/failed catalog (the
Python dict is then empty, i.e. falsy). -/
abbrev Mapping := List (Str × List Str)

/-- Python `CARGO_MAPPING.get(table, [])`. -/
def mappingGet (m : Mapping) (k : Str) : List Str :=
  ((m.find? (fun p => p.1 = k)).map (fun p => p.2)).getD []

/-- models.py `CLASS_TO_TABLE`: item class to supplementary cargo table. -/
def CLASS_TO_TABLE : List (Str × Str) :=
  [ (chars "One-Handed Axe", chars "weapons"),
    (chars "Two-Handed Axe", chars "weapons"),
    (chars "One-Handed Mace", chars "weapons"),
    (chars "Two-Handed Mace", chars "weapons"),
    (chars "One-Handed Sword", chars "weapons"),
    (chars "Two-Handed Sword", chars "weapons"),
    (chars "Bow", chars "weapons"),
    (chars "Claw", chars "weapons"),
    (chars "Dagger", chars "weapons"),
    (chars "Rune Dagger", chars "weapons"),
    (chars "Staff", chars "weapons"),
    (chars "Warstaff", chars "weapons"),
    (chars "Wand", chars "weapons"),
    (chars "Sceptre", chars "weapons"),
    (chars "Body Armour", chars "armours"),
    (chars "Helmet", chars "armours"),
    (chars "Boots", chars "armours"),
    (chars "Gloves", chars "armours"),
    (chars "Shield", chars "armours"),
    (chars "Skill Gem", chars "skill_gems"),
    (chars "Support Gem", chars "skill_gems"),
    (chars "Map", chars "maps"),
    (chars "Jewel", chars "jewels"),
    (chars "Abyss Jewel", chars "jewels"),
    (chars "Flask", chars "flasks"),
    (chars "Amulet", chars "amulets"),
    (chars "Ring", chars "items"),
    (chars "Belt", chars "items"),
    (chars "Divination Card", chars "divination_cards"),
    (chars "Skill", chars "skill"),
    (chars "Monster", chars "monsters"),
    (chars "Pantheon", chars "pantheon"),
    (chars "Passive Skill", chars "passive_skills") ]

/-- models.py `get_table_for_class`. -/
def get_table_for_class (item_class : Str) : Option Str :=
  (CLASS_TO_TABLE.find? (fun p => p.1 = item_class)).map (fun p => p.2)

/-- models.py `get_fields_for_table`. -/
def get_fields_for_table (m : Mapping) (table : Str) : List Str :=
  mappingGet m table

/-- models.py `validate_field`: fail-open when the catalog is missing,
otherwise accept the field or its space-to-underscore normalization. -/
def validate_field (m : Mapping) (table f : Str) : Bool :=
  if m.isEmpty then true
  else
    let table_fields := mappingGet m table
    let field_normalized := spaceToUnderscore f
    decide (field_normalized ∈ table_fields) || decide (f ∈ table_fields)

/-!  ## api.py: supplementary field selection (populate_item_details, step 3)  -/

/-- The identity fields excluded from the supplementary query (api.py line 272). -/
def identityFields : List Str :=
  [ chars "name", chars "item_class", chars "rarity",
    chars "implicit_mods", chars "explicit_mods", chars "flavour_text" ]

/-- The excluded name patterns (api.py line 274). -/
def excludedSubs : List Str :=
  [ chars "_min", chars "_max", chars "average", chars "color", chars "colour" ]

/-- `any(sub in f.lower() for sub in [...])` (api.py line 274). -/
def hasExcludedSub (f : Str) : Bool :=
  excludedSubs.any (fun sub => pyIn sub (pyLower f))

/-- The `valid_fields` loop of api.py lines 270-277: drop identity fields,
drop fields whose lowered name contains an excluded pattern, and keep only
fields accepted by the catalog. -/
def valid_fields (m : Mapping) (table : Str) (all_fields : List Str) : List Str :=
  all_fields.filter
    (fun f => !(decide (f ∈ identityFields)) && !(hasExcludedSub f) && validate_field m table f)

/-!  ## api.py: the cargo response envelope and query_items  -/

/-- The decoded JSON envelope of a cargo query: whether the top-level object
has an `"error"` key, and the list of `"title"` objects under `"cargoquery"`
(empty when the key is missing). -/
structure CargoEnvelope where
  errorKey : Bool
  cargoquery : List Row
deriving DecidableEq

/-- The item record of api.py (dataclass `Item`). -/
structure Item where
  name : Str
  rarity : Str
  item_class : Str
  required_level : Option Str := none
  flavour_text : Option Str := none
  description : Option Str := none
  implicit_mods : Option Str := none
  explicit_mods : Option Str := none
  image_url : Option Str := none
  stats : Row := []
deriving DecidableEq

/-- Construction of one `Item` from a raw search row (api.py lines 353-360),
with the batched image-URL dictionary used to resolve the icon. -/
def mkItem (image_urls : Row) (r : Row) : Item :=
  { name := pyOrStr (rowGet r (chars "name")) (chars "Unknown"),
    rarity := pyOrStr (rowGet r (chars "rarity")) (chars "Unknown"),
    item_class := pyOrStr (rowGet r (chars "class")) (chars "Unknown"),
    image_url :=
      match rowGet r (chars "inventory icon") with
      | none => none
      | some ic => rowGet image_urls ic }

/-- api.py `query_items` after the JSON envelope is decoded (lines 340-367,
with `detailed=False` so no per-item enrichment happens): an error-bearing
envelope yields the empty list, otherwise one item per returned row. -/
def query_items_from (data : CargoEnvelope) (image_urls : Row) : List Item :=
  if data.errorKey then []
  else data.cargoquery.map (mkItem image_urls)

/-!  ## bot.py: message-size cap  -/

/-- bot.py lines 324-327 and 371-374: cap the rendered content at 4000
characters, appending an ellipsis when it was longer. -/
def cap_content (content : Str) : Str :=
  if content.length > 4000 then content.take 4000 ++ chars "..." else content

/-!  ## api.py: primary mod fetch and merge with the fallback (populate_item_details, step 1)  -/

/-- The two field-name spellings tried by the primary mod path
(api.py line 214): underscores, then spaces. -/
def spellings (f : Str) : List Str := [f, underscoreToSpace f]

/-- Outcome of one primary query attempt (api.py lines 215-235): `none`
models an exception, an `"error"` envelope, or an empty `cargoquery`
(no assignment happens); `some v` is `cq[0]["title"].get(field_name)`. -/
def attemptVal (field_name : Str) (resp : Option CargoEnvelope) : Option (Option Str) :=
  match resp with
  | none => none
  | some env =>
    if env.errorKey then none
    else
      match env.cargoquery with
      | [] => none
      | row :: _ => some (rowGet row field_name)

/-- The inner spelling loop of api.py lines 214-235: `implicit = val or implicit`
followed by `if val: break`. -/
def primaryFold : List (Option (Option Str)) → Option Str → Option Str
  | [], acc => acc
  | a :: rest, acc =>
    match a with
    | none => primaryFold rest acc
    | some val => if pyTruthyOpt val then val else primaryFold rest (pyOrOpt val acc)

/-- Primary-path value for one mod field (api.py lines 210-235): skipped
entirely when the catalog rejects the field, otherwise the spelling loop
over the two query responses. -/
def primaryFieldLookup (m : Mapping) (field_to_check : Str)
    (resps : List (Option CargoEnvelope)) : Option Str :=
  if validate_field m (chars "items") field_to_check then
    primaryFold (((spellings field_to_check).zip resps).map (fun pr => attemptVal pr.1 pr.2)) none
  else none

/-- `"<br>".join(...)` (api.py lines 240 and 242). -/
def joinBr (xs : List Str) : Str := List.intercalate (chars "<br>") xs

/-- The merge of primary and fallback mod values (api.py lines 237-242):
when a side is falsy after the primary path and the fallback list for that
side is non-empty, backfill it with the `<br>`-joined fallback strings. -/
def mergeWithFallback (implicit explicit : Option Str) (fb : List Str × List Str) :
    Option Str × Option Str :=
  if !(pyTruthyOpt implicit) || !(pyTruthyOpt explicit) then
    let i := if !(fb.1.isEmpty) && !(pyTruthyOpt implicit) then some (joinBr fb.1) else implicit
    let e := if !(fb.2.isEmpty) && !(pyTruthyOpt explicit) then some (joinBr fb.2) else explicit
    (i, e)
  else (implicit, explicit)

/-- The whole mod-resolution section of `populate_item_details` (api.py
lines 207-245), with the primary query responses and the fallback result
passed in as data. -/
def resolveModsSection (m : Mapping) (iR eR : List (Option CargoEnvelope))
    (fb : List Str × List Str) : Option Str × Option Str :=
  mergeWithFallback
    (primaryFieldLookup m (chars "implicit_mods") iR)
    (primaryFieldLookup m (chars "explicit_mods") eR)
    fb

/-!  ## api.py: fallback mod bucketing (get_mods_fallback, lines 186-195)  -/

/-- The implicit/explicit flags of one mod, decoded from `item_mods`
(api.py lines 110-118). -/
structure ModInfo where
  is_implicit : Bool
  is_explicit : Bool
deriving DecidableEq

/-- The bucketing loop of api.py lines 186-190: a mod flagged implicit goes
to the implicit list; otherwise, one flagged explicit goes to the explicit
list; otherwise it is dropped. -/
def bucketMods : List (Str × ModInfo) → List Str × List Str
  | [] => ([], [])
  | (t, info) :: rest =>
    let r := bucketMods rest
    if info.is_implicit then (t :: r.1, r.2)
    else if info.is_explicit then (r.1, t :: r.2)
    else r

/-!  ## api.py: populate_item_details and get_item_details  -/

/-- Outcome of the batched supplementary query (api.py lines 279-318):
either the batch call returned an envelope, or it raised and the code fell
back to one individual query per field (each itself fallible). -/
inductive SupResult where
  | ok : CargoEnvelope → SupResult
  | failed : List (Option CargoEnvelope) → SupResult
deriving DecidableEq

/-- All remote responses consumed by one `populate_item_details` call. -/
structure PopulateInput where
  include_mods : Bool
  implicitResps : List (Option CargoEnvelope)
  explicitResps : List (Option CargoEnvelope)
  fallbackMods : List Str × List Str
  metaResp : Option CargoEnvelope
  supResp : SupResult
deriving DecidableEq

/-- Python dict assignment `item.stats[key] = val`: update an existing key
in place, otherwise append. -/
def statsSet (st : Row) (k v : Str) : Row :=
  if st.any (fun p => p.1 = k) then st.map (fun p => if p.1 = k then (k, v) else p)
  else st ++ [(k, v)]

/-- Store one supplementary field from a response row (api.py lines 295-299
and 314-317): look the field up under its space spelling and store a truthy
value under its underscore spelling. -/
def storeField (row : Row) (st : Row) (f : Str) : Row :=
  match rowGet row (underscoreToSpace f) with
  | some v => if pyTruthy v then statsSet st (spaceToUnderscore f) v else st
  | none => st

/-- Step 1 of `populate_item_details` (api.py lines 207-245): resolve mods
and assign both fields on the item. -/
def modsStep (m : Mapping) (inp : PopulateInput) (item : Item) : Item :=
  if inp.include_mods then
    let r := resolveModsSection m inp.implicitResps inp.explicitResps inp.fallbackMods
    { item with implicit_mods := r.1, explicit_mods := r.2 }
  else item

/-- Step 2 of `populate_item_details` (api.py lines 247-264): fetch
required_level, flavour_text and description, never overwriting an existing
value with an absent one. -/
def metaStep (inp : PopulateInput) (item : Item) : Item :=
  match inp.metaResp with
  | none => item
  | some env =>
    match env.cargoquery with
    | [] => item
    | row :: _ =>
      { item with
        required_level := pyOrOpt (rowGet row (chars "required level")) item.required_level,
        flavour_text := pyOrOpt (rowGet row (chars "flavour text")) item.flavour_text,
        description := pyOrOpt (rowGet row (chars "description")) item.description }

/-- Step 3 of `populate_item_details` (api.py lines 266-318): compute the
valid supplementary fields, run the batched query (or the per-field
fallback), and store each returned truthy value. -/
def supStep (m : Mapping) (inp : PopulateInput) (item : Item) : Item :=
  match get_table_for_class item.item_class with
  | none => item
  | some table =>
    let all_fields := get_fields_for_table m table
    let vf := valid_fields m table all_fields
    if vf.isEmpty then item
    else
      match inp.supResp with
      | .ok env =>
        match env.cargoquery with
        | [] => item
        | row :: _ => { item with stats := vf.foldl (storeField row) item.stats }
      | .failed resps =>
        let step := fun (st : Row) (pr : Str × Option CargoEnvelope) =>
          match pr.2 with
          | none => st
          | some env =>
            match env.cargoquery with
            | [] => st
            | row :: _ => storeField row st pr.1
        { item with stats := (vf.zip resps).foldl step item.stats }

/-- api.py `populate_item_details` (lines 197-320). -/
def populate_item_details (m : Mapping) (inp : PopulateInput) (item : Item) : Item :=
  supStep m inp (metaStep inp (modsStep m inp item))

/-- api.py `get_item_details` (lines 369-398) after the undetailed search
response has been decoded: return `none` on an empty result list, otherwise
prefer an exact case-insensitive name match, then the first result whose
lowered name contains the lowered query, and populate only that record. -/
def get_item_details (m : Mapping) (searchData : CargoEnvelope) (image_urls : Row)
    (inp : PopulateInput) (name : Str) : Option Item :=
  let results := query_items_from searchData image_urls
  if results.isEmpty then none
  else
    match results.find? (fun it => pyLower it.name = pyLower name) with
    | some target => some (populate_item_details m inp target)
    | none =>
      match results.find? (fun it => pyIn (pyLower name) (pyLower it.name)) with
      | some target => some (populate_item_details m inp target)
      | none => none

/-!  ## api.py: fallback mod rendering (get_mods_fallback, lines 169-184)  -/

/-- Matcher for the regex `\(\d+-\d+\)` at the start of the input (the
pattern is deterministic: maximal digit runs, then the forced literal);
returns the remainder after the matched token. -/
def rangeMatch (s : Str) : Option Str :=
  match s with
  | [] => none
  | c :: r =>
    if c = '(' then
      if (r.takeWhile Char.isDigit).isEmpty then none
      else
        match r.dropWhile Char.isDigit with
        | [] => none
        | c1 :: r2 =>
          if c1 = '-' then
            if (r2.takeWhile Char.isDigit).isEmpty then none
            else
              match r2.dropWhile Char.isDigit with
              | [] => none
              | c3 :: r4 => if c3 = ')' then some r4 else none
          else none
    else none

/-- `re.sub(r'\(\d+-\d+\)', repl, s)`: left-to-right scan replacing the
non-overlapping matches; structural fuel keeps it kernel-computable. -/
def reSubRangeF (repl : Str) : Nat → Str → Str
  | _, [] => []
  | 0, s => s
  | fuel+1, c :: cs =>
    match rangeMatch (c :: cs) with
    | some rest => repl ++ reSubRangeF repl fuel rest
    | none => c :: reSubRangeF repl fuel cs

/-- `re.sub(r'\(\d+-\d+\)', repl, s)` (api.py lines 178 and 181). -/
def reSubRange (repl s : Str) : Str := reSubRangeF repl s.length s

/-- Python `stat_text.replace('#', s_min)` (api.py line 179). -/
def replaceHash (v : Str) : Str → Str
  | [] => []
  | c :: cs => (if c = '#' then v else [c]) ++ replaceHash v cs

/-- Whether a match of `\(\d+-\d+\)` occurs anywhere in the string
(residual bracketed numeric-range syntax). -/
def hasRangeTokenF : Nat → Str → Bool
  | _, [] => false
  | 0, _ => false
  | fuel+1, c :: cs => (rangeMatch (c :: cs)).isSome || hasRangeTokenF fuel cs

/-- Whether the string contains a bracketed numeric-range token. -/
def hasRangeToken (s : Str) : Bool := hasRangeTokenF s.length s

/-- Matcher for the tail `([^\]]+)\]\]` of the wiki-link regex: capture a
maximal non-empty run without `]`, then the closing `]]`; returns the
capture and the remainder. -/
def linkMatchCapture (r : Str) : Option (Str × Str) :=
  if (r.takeWhile (fun c => c != ']')).isEmpty then none
  else
    match r.dropWhile (fun c => c != ']') with
    | [] => none
    | c1 :: r3 =>
      if c1 = ']' then
        match r3 with
        | [] => none
        | c2 :: r4 => if c2 = ']' then some (r.takeWhile (fun c => c != ']'), r4) else none
      else none

/-- Matcher for `\[\[(?:[^|\]]*\|)?([^\]]+)\]\]` at the start of the input:
the optional greedy group `[^|\]]*\|` is tried first and dropped on failure
of the rest of the pattern, as the regex engine backtracks. -/
def linkMatch (s : Str) : Option (Str × Str) :=
  match s with
  | [] => none
  | c0 :: t =>
    if c0 = '[' then
      match t with
      | [] => none
      | c1 :: r =>
        if c1 = '[' then
          match r.dropWhile (fun c => c != '|' && c != ']') with
          | [] => linkMatchCapture r
          | cg :: r2 =>
            if cg = '|' then
              match linkMatchCapture r2 with
              | some res => some res
              | none => linkMatchCapture r
            else linkMatchCapture r
        else none
    else none

/-- `re.sub(r'\[\[(?:[^|\]]*\|)?([^\]]+)\]\]', r'\1', s)` (api.py line 184):
replace each wiki link by its display text. -/
def wikiCleanupF : Nat → Str → Str
  | _, [] => []
  | 0, s => s
  | fuel+1, c :: cs =>
    match linkMatch (c :: cs) with
    | some (cap, rest) => cap ++ wikiCleanupF fuel rest
    | none => c :: wikiCleanupF fuel cs

/-- The wiki-link cleanup of api.py line 184. -/
def wikiCleanup (s : Str) : Str := wikiCleanupF s.length s

/-- One placeholder-substitution step for one `item_stats` row (api.py
lines 173-181): when min and max are both truthy and equal, substitute the
value for the range token and every `#`; when they differ, substitute the
`(min-max)` text for the range token. -/
def applyStat (text : Str) (stat : Row) : Str :=
  match rowGet stat (chars "min"), rowGet stat (chars "max") with
  | some mn, some mx =>
    if pyTruthy mn && pyTruthy mx then
      if mn = mx then replaceHash mn (reSubRange mn text)
      else reSubRange (('(' :: mn) ++ ('-' :: mx) ++ [')']) text
    else text
  | _, _ => text

/-- Rendering of one fallback mod's text (api.py lines 170-184): apply each
stat row's substitution in order, then strip wiki-link markup. -/
def assembleModText (stats : List Row) (stat_text : Str) : Str :=
  wikiCleanup (stats.foldl applyStat stat_text)

/-!  ## bot.py: presentation (format_content, lines 215-318)  -/

/-- Python `s.replace(pat, repl)` for a non-empty pattern, scanning left to
right over non-overlapping occurrences; structural fuel keeps the
definition kernel-computable. -/
def pyReplaceF (pat repl : Str) : Nat → Str → Str
  | _, [] => []
  | 0, s => s
  | fuel+1, c :: cs =>
    if pat.isPrefixOf (c :: cs) && !pat.isEmpty then
      repl ++ pyReplaceF pat repl fuel (List.drop pat.length (c :: cs))
    else c :: pyReplaceF pat repl fuel cs

/-- Python `s.replace(pat, repl)`. -/
def pyReplace (pat repl s : Str) : Str := pyReplaceF pat repl s.length s

/-- `html.escape` on one character (quote=True: `&`, `<`, `>`, `"`, `'`). -/
def escapeChar (c : Char) : Str :=
  if c = '&' then chars "&amp;"
  else if c = '<' then chars "&lt;"
  else if c = '>' then chars "&gt;"
  else if c = Char.ofNat 34 then chars "&quot;"
  else if c = Char.ofNat 39 then chars "&#x27;"
  else [c]

/-- Python `html.escape(s)` (with its default quote=True). -/
def htmlEscape : Str → Str
  | [] => []
  | c :: cs => escapeChar c ++ htmlEscape cs

/-- Python `s.title()`: uppercase a letter starting a word, lowercase the
other letters; the flag tracks whether the previous character was a letter. -/
def pyTitleAux : Bool → Str → Str
  | _, [] => []
  | prevAlpha, c :: cs =>
    if c.isAlpha then
      (if prevAlpha then c.toLower else c.toUpper) :: pyTitleAux true cs
    else c :: pyTitleAux false cs

/-- Python `s.title()`. -/
def pyTitle (s : Str) : Str := pyTitleAux false s

/-- The uppercase hexadecimal digits. -/
def hexDigits : List Char := chars "0123456789ABCDEF"

/-- `%XX` percent-encoding of one byte. -/
def byteHex (n : Nat) : Str := ['%', hexDigits.getD (n / 16) '0', hexDigits.getD (n % 16) '0']

/-- UTF-8 bytes of one character. -/
def utf8Bytes (c : Char) : List Nat :=
  let n := c.toNat
  if n < 128 then [n]
  else if n < 2048 then [192 + n / 64, 128 + n % 64]
  else if n < 65536 then [224 + n / 4096, 128 + (n / 64) % 64, 128 + n % 64]
  else [240 + n / 262144, 128 + (n / 4096) % 64, 128 + (n / 64) % 64, 128 + n % 64]

/-- The characters `urllib.parse.quote` leaves unencoded (default safe='/'). -/
def quoteSafe (c : Char) : Bool :=
  c.isAlpha || c.isDigit || c = '_' || c = '.' || c = '-' || c = '~' || c = '/'

/-- Python `urllib.parse.quote(s)`. -/
def pyQuote : Str → Str
  | [] => []
  | c :: cs =>
    (if quoteSafe c then [c]
     else (utf8Bytes c).foldr (fun b acc => byteHex b ++ acc) []) ++ pyQuote cs

/-- bot.py line 213: the wiki URL built from the item name. -/
def wiki_url_for (name : Str) : Str :=
  chars "https://www.poewiki.net/wiki/" ++ pyQuote (spaceToUnderscore name)

/-- Python `display_stats.pop(key, None)`: remove the key. -/
def statsPop (ds : Row) (k : Str) : Row := ds.eraseP (fun p => p.1 = k)

/-- bot.py lines 241-259 `format_map`, in insertion order, each format
string split around its `{}` slot. -/
def format_map : List (Str × Str × Str) :=
  [ (chars "critical_strike_chance_range_text", chars "Critical Strike Chance: ", chars ""),
    (chars "critical_strike_chance", chars "Critical Strike Chance: ", chars "%"),
    (chars "attack_speed_range_text", chars "Attacks per Second: ", chars ""),
    (chars "attack_speed", chars "Attacks per Second: ", chars ""),
    (chars "weapon_range_range_text", chars "Weapon Range: ", chars ""),
    (chars "weapon_range", chars "Weapon Range: ", chars ""),
    (chars "armour_range_text", chars "Armour: ", chars ""),
    (chars "armour", chars "Armour: ", chars ""),
    (chars "evasion_range_text", chars "Evasion Rating: ", chars ""),
    (chars "evasion", chars "Evasion Rating: ", chars ""),
    (chars "energy_shield_range_text", chars "Energy Shield: ", chars ""),
    (chars "energy_shield", chars "Energy Shield: ", chars ""),
    (chars "ward_range_text", chars "Ward: ", chars ""),
    (chars "ward", chars "Ward: ", chars ""),
    (chars "map_tier", chars "Map Tier: ", chars ""),
    (chars "gem_tags", chars "Tags: ", chars ""),
    (chars "primary_attribute", chars "Primary Attribute: ", chars "") ]

/-- The physical-damage special case of bot.py lines 231-238, threading the
(stat lines, remaining display stats) pair. -/
def physStep (acc : List Str × Row) : List Str × Row :=
  let stats := acc.1
  let ds := acc.2
  match rowGet ds (chars "physical_damage_range_text") with
  | some v =>
    let ds := statsPop ds (chars "physical_damage_range_text")
    let ds := statsPop ds (chars "physical_damage_min")
    let ds := statsPop ds (chars "physical_damage_max")
    (stats ++ [chars "Physical Damage: " ++ v], ds)
  | none =>
    match rowGet ds (chars "physical_damage_min"), rowGet ds (chars "physical_damage_max") with
    | some mn, some mx =>
      (stats ++ [chars "Physical Damage: " ++ mn ++ chars "-" ++ mx],
       statsPop (statsPop ds (chars "physical_damage_min")) (chars "physical_damage_max"))
    | _, _ =>
      match rowGet ds (chars "physical_damage") with
      | some v => (stats ++ [chars "Physical Damage: " ++ v], statsPop ds (chars "physical_damage"))
      | none => (stats, ds)

/-- One iteration of the `format_map` loop (bot.py lines 262-278).
`critFmt` stands for the `f"{float(val):.2f}"`-with-fallback conversion
applied only to the bare `critical_strike_chance` key (floating-point
formatting is not modelled; the counterexample below never invokes it). -/
def formatMapStep (critFmt : Str → Str) (acc : List Str × Row) (entry : Str × Str × Str) :
    List Str × Row :=
  let stats := acc.1
  let ds := acc.2
  let key := entry.1
  match rowGet ds key with
  | none => (stats, ds)
  | some val =>
    let ds := statsPop ds key
    let base_key := pyReplace (chars "_range_text") [] key
    let ds :=
      if pyIn (chars "_range_text") key then
        statsPop (statsPop (statsPop ds base_key) (base_key ++ chars "_min")) (base_key ++ chars "_max")
      else ds
    let val :=
      if key = chars "critical_strike_chance" ∧ ((chars "_range_text").isSuffixOf key = false) then
        critFmt val
      else val
    (stats ++ [entry.2.1 ++ htmlEscape val ++ entry.2.2], ds)

/-- bot.py lines 280-281: the `Requires Level` line, when present and truthy. -/
def requiredLevelLines (item : Item) : List Str :=
  match item.required_level with
  | some v => if pyTruthy v then [chars "Requires Level " ++ htmlEscape v] else []
  | none => []

/-- The filter of the leftover-stat loop (bot.py line 285):
`val and val != "0" and not key.startswith("_") and "html" not in key`. -/
def leftoverKeep (p : Str × Str) : Bool :=
  pyTruthy p.2 && !(decide (p.2 = chars "0")) &&
    !((chars "_").isPrefixOf p.1) && !(pyIn (chars "html") p.1)

/-- The generic line rendered for a leftover stat (bot.py lines 286-288). -/
def leftoverLine (p : Str × Str) : Str :=
  let label := pyTitle (underscoreToSpace (pyReplace (chars "_range_text") [] p.1))
  htmlEscape label ++ chars ": " ++ htmlEscape p.2

/-- The leftover-stat loop of bot.py lines 283-288. -/
def leftoverLines (ds : Row) : List Str := (ds.filter leftoverKeep).map leftoverLine

/-- Mod text display (bot.py lines 294-300): escape, then turn the escaped
`<br>`/`<br/>` separators into newlines. -/
def modBlock (mods : Str) : Str :=
  pyReplace (chars "&lt;br/&gt;") (chars "\n")
    (pyReplace (chars "&lt;br&gt;") (chars "\n") (htmlEscape mods))

/-- bot.py `format_content` (lines 215-318). -/
def format_content (critFmt : Str → Str) (wiki_url : Str) (item : Item)
    (loading_mods : Bool) : Str :=
  let parts0 : List Str :=
    [ chars "<b><a href=\"" ++ htmlEscape wiki_url ++ chars "\">" ++ htmlEscape item.name ++ chars "</a></b>",
      chars "<i>" ++ htmlEscape item.item_class ++ chars "</i>" ]
  let sd := format_map.foldl (formatMapStep critFmt) (physStep ([], item.stats))
  let stats := sd.1 ++ requiredLevelLines item ++ leftoverLines sd.2
  let parts := parts0 ++
    (if stats.isEmpty then [] else [List.intercalate (chars "\n") stats]) ++
    (match item.implicit_mods with
     | some mods => if pyTruthy mods then [modBlock mods] else []
     | none => []) ++
    (match item.explicit_mods with
     | some mods => if pyTruthy mods then [modBlock mods] else []
     | none => []) ++
    (if loading_mods then [chars "<b><i>Loading mods...</i></b>"] else []) ++
    (match item.description with
     | some d => if pyTruthy d then [htmlEscape d] else []
     | none => []) ++
    (match item.flavour_text with
     | some f => if pyTruthy f then [chars "<i>" ++ htmlEscape f ++ chars "</i>"] else []
     | none => [])
  let image_part :=
    match item.image_url with
    | some url => if pyTruthy url then chars "<a href=\"" ++ htmlEscape url ++ chars "\">&#8205;</a>" else []
    | none => []
  image_part ++ List.intercalate (chars "\n\n") parts

/-- A concrete item whose stat mapping carries the literal zero string for
a specially formatted stat (armour). -/
def sampleZeroArmourItem : Item :=
  { name := chars "Test Ring", rarity := chars "Unique", item_class := chars "Ring",
    stats := [(chars "armour", chars "0")] }

/-- A sample raw search row used by concrete instantiations. -/
def sampleSearchRow : Row :=
  [(chars "name", chars "Starforge"), (chars "class", chars "Two-Handed Sword")]

/-- A sample `PopulateInput` with no usable remote responses. -/
def samplePopInput : PopulateInput :=
  ⟨true, [], [], ([], []), none, .ok ⟨false, []⟩⟩

/-!  ## Claims C4, C5, C6, C8  -/

/-- C4: every field placed in the batched supplementary query is not an
identity field, does not contain any excluded pattern (`_min`, `_max`,
`average`, `color`, `colour`) in its lowered name, and passes catalog
validation. -/
theorem valid_fields_excludes_and_validates
    (m : Mapping) (table : Str) (all_fields : List Str) (f : Str)
    (h : f ∈ valid_fields m table all_fields) :
    f ∉ identityFields ∧ hasExcludedSub f = false ∧ validate_field m table f = true := by
  rcases List.mem_filter.mp h with ⟨-, hp⟩
  simp only [Bool.and_eq_true, Bool.not_eq_true', decide_eq_false_iff_not] at hp
  exact ⟨hp.1.1, hp.1.2, hp.2⟩

theorem valid_fields_excludes_and_validates_witness :
    (chars "attack_speed") ∉ identityFields ∧
    hasExcludedSub (chars "attack_speed") = false ∧
    validate_field [(chars "weapons", [chars "name", chars "attack_speed", chars "physical_damage_min"])]
      (chars "weapons") (chars "attack_speed") = true :=
  valid_fields_excludes_and_validates
    [(chars "weapons", [chars "name", chars "attack_speed", chars "physical_damage_min"])]
    (chars "weapons")
    [chars "name", chars "attack_speed", chars "physical_damage_min"]
    (chars "attack_speed") (by decide)

/-- C5: a JSON envelope carrying an `"error"` key makes `query_items`
return the empty result list instead of failing (api.py lines 342-344). -/
theorem query_items_error_returns_empty
    (data : CargoEnvelope) (image_urls : Row) (h : data.errorKey = true) :
    query_items_from data image_urls = [] := by
  simp [query_items_from, h]

theorem query_items_error_returns_empty_witness :
    query_items_from ⟨true, [[(chars "name", chars "Starforge")]]⟩ [] = [] :=
  query_items_error_returns_empty ⟨true, [[(chars "name", chars "Starforge")]]⟩ [] rfl

/-- C6: when the rendered body exceeds the 4000-character budget, the
delivered content is exactly the first 4000 characters followed by `"..."`,
and its length (4003) never exceeds the 4096 message-size ceiling. -/
theorem cap_content_truncation (content : Str) (h : content.length > 4000) :
    cap_content content = content.take 4000 ++ chars "..." ∧
    (cap_content content).length ≤ 4096 := by
  have he : cap_content content = content.take 4000 ++ chars "..." := by
    simp [cap_content, h]
  refine ⟨he, ?_⟩
  rw [he, List.length_append, List.length_take]
  have h3 : (chars "...").length = 3 := rfl
  rw [h3]
  omega

theorem cap_content_truncation_witness :
    cap_content (List.replicate 4001 'a') = (List.replicate 4001 'a').take 4000 ++ chars "..." ∧
    (cap_content (List.replicate 4001 'a')).length ≤ 4096 :=
  cap_content_truncation (List.replicate 4001 'a')
    (by rw [List.length_replicate]; omega)

/-- C8: `validate_field` fails open (returns true) when the catalog is
empty, and otherwise accepts a field exactly when the field itself or its
space-to-underscore normalization appears in the catalog fields of the
table. -/
theorem validate_field_fail_open_and_normalization (m : Mapping) (table f : Str) :
    (m.isEmpty = true → validate_field m table f = true) ∧
    (m.isEmpty = false →
      (validate_field m table f = true ↔
        spaceToUnderscore f ∈ mappingGet m table ∨ f ∈ mappingGet m table)) := by
  constructor
  · intro h
    simp [validate_field, h]
  · intro h
    simp [validate_field, h]

theorem validate_field_fail_open_and_normalization_witness :
    validate_field [] (chars "items") (chars "implicit_mods") = true ∧
    (validate_field [(chars "items", [chars "implicit_mods"])] (chars "items") (chars "implicit mods") = true ↔
      spaceToUnderscore (chars "implicit mods") ∈ mappingGet [(chars "items", [chars "implicit_mods"])] (chars "items") ∨
      (chars "implicit mods") ∈ mappingGet [(chars "items", [chars "implicit_mods"])] (chars "items")) :=
  ⟨(validate_field_fail_open_and_normalization [] (chars "items") (chars "implicit_mods")).1 rfl,
   (validate_field_fail_open_and_normalization [(chars "items", [chars "implicit_mods"])]
      (chars "items") (chars "implicit mods")).2 rfl⟩

/-!  ## Claims C1 and C9  -/

theorem mergeWithFallback_cases (pi pe : Option Str) (fb : List Str × List Str) :
    (pyTruthyOpt pi = true → (mergeWithFallback pi pe fb).1 = pi) ∧
    (pyTruthyOpt pi = false → fb.1 ≠ [] → (mergeWithFallback pi pe fb).1 = some (joinBr fb.1)) ∧
    (pyTruthyOpt pe = true → (mergeWithFallback pi pe fb).2 = pe) ∧
    (pyTruthyOpt pe = false → fb.2 ≠ [] → (mergeWithFallback pi pe fb).2 = some (joinBr fb.2)) := by
  unfold mergeWithFallback
  cases hpi : pyTruthyOpt pi <;> cases hpe : pyTruthyOpt pe <;>
    cases hf1 : fb.1.isEmpty <;> cases hf2 : fb.2.isEmpty <;>
      simp_all [List.isEmpty_iff]

/-- C1: in the mod-resolution section, each of the implicit and explicit
fields keeps the primary-path value whenever that value is truthy
(non-empty); a side that is falsy after the primary path, when the fallback
list for it is non-empty, is backfilled with the fallback strings joined by
the literal separator `<br>`; a truthy primary value is never replaced. -/
theorem mods_merge_primary_wins_and_backfill (m : Mapping)
    (iR eR : List (Option CargoEnvelope)) (fb : List Str × List Str) :
    (pyTruthyOpt (primaryFieldLookup m (chars "implicit_mods") iR) = true →
      (resolveModsSection m iR eR fb).1 = primaryFieldLookup m (chars "implicit_mods") iR) ∧
    (pyTruthyOpt (primaryFieldLookup m (chars "implicit_mods") iR) = false → fb.1 ≠ [] →
      (resolveModsSection m iR eR fb).1 = some (joinBr fb.1)) ∧
    (pyTruthyOpt (primaryFieldLookup m (chars "explicit_mods") eR) = true →
      (resolveModsSection m iR eR fb).2 = primaryFieldLookup m (chars "explicit_mods") eR) ∧
    (pyTruthyOpt (primaryFieldLookup m (chars "explicit_mods") eR) = false → fb.2 ≠ [] →
      (resolveModsSection m iR eR fb).2 = some (joinBr fb.2)) :=
  mergeWithFallback_cases _ _ fb

theorem mods_merge_primary_wins_and_backfill_witness :
    (resolveModsSection [] [] [] ([chars "+1 to maximum life"], [])).1 =
      some (joinBr [chars "+1 to maximum life"]) :=
  (mods_merge_primary_wins_and_backfill [] [] [] ([chars "+1 to maximum life"], [])).2.1
    (by decide) (by decide)

/-- C9: the fallback bucketing partitions the assembled mods: the implicit
list holds exactly the texts of mods flagged implicit (so a mod flagged
both implicit and explicit lands only in the implicit list), and the
explicit list holds exactly the texts of mods flagged explicit but not
implicit; a mod flagged neither appears in neither list. -/
theorem bucketMods_partition (l : List (Str × ModInfo)) :
    bucketMods l =
      ((l.filter (fun p => p.2.is_implicit)).map (fun p => p.1),
       (l.filter (fun p => !(p.2.is_implicit) && p.2.is_explicit)).map (fun p => p.1)) := by
  induction l with
  | nil => rfl
  | cons hd tl ih =>
    obtain ⟨t, info⟩ := hd
    cases hi : info.is_implicit <;> cases he : info.is_explicit <;>
      simp [bucketMods, ih, hi, he]

/-!  ## Claims C3 and C10  -/

theorem modsStep_name (m : Mapping) (inp : PopulateInput) (item : Item) :
    (modsStep m inp item).name = item.name := by
  unfold modsStep; split <;> rfl

theorem metaStep_name (inp : PopulateInput) (item : Item) :
    (metaStep inp item).name = item.name := by
  unfold metaStep
  split
  · rfl
  · split <;> rfl

theorem supStep_name (m : Mapping) (inp : PopulateInput) (item : Item) :
    (supStep m inp item).name = item.name := by
  unfold supStep
  split
  · rfl
  · dsimp only
    split
    · rfl
    · split
      · split <;> rfl
      · rfl

theorem populate_preserves_name (m : Mapping) (inp : PopulateInput) (item : Item) :
    (populate_item_details m inp item).name = item.name := by
  unfold populate_item_details
  rw [supStep_name, metaStep_name, modsStep_name]

/-- C3: when no result of the underlying search matches the queried name
exactly (case-insensitively) or contains it as a case-insensitive
substring — in particular when the search yields nothing at all —
`get_item_details` returns `none` instead of failing. -/
theorem get_item_details_no_match_none (m : Mapping) (searchData : CargoEnvelope)
    (image_urls : Row) (inp : PopulateInput) (name : Str)
    (h : ∀ it ∈ query_items_from searchData image_urls,
      pyLower it.name ≠ pyLower name ∧ pyIn (pyLower name) (pyLower it.name) = false) :
    get_item_details m searchData image_urls inp name = none := by
  unfold get_item_details
  cases he : (query_items_from searchData image_urls).isEmpty
  · have h1 : (query_items_from searchData image_urls).find?
        (fun it => pyLower it.name = pyLower name) = none := by
      rw [List.find?_eq_none]
      intro x hx
      simp only [decide_eq_true_eq]
      exact (h x hx).1
    have h2 : (query_items_from searchData image_urls).find?
        (fun it => pyIn (pyLower name) (pyLower it.name)) = none := by
      rw [List.find?_eq_none]
      intro x hx
      simp [(h x hx).2]
    simp [he, h1, h2]
  · simp [he]

theorem get_item_details_no_match_none_witness :
    get_item_details [] ⟨false, [[(chars "name", chars "Kaoms Heart")]]⟩ []
      samplePopInput (chars "Starforge") = none :=
  get_item_details_no_match_none _ _ _ _ _ (by decide)

/-- C10: whenever `get_item_details` returns a non-absent item, that item's
name equals the queried name case-insensitively or contains the queried
name as a case-insensitive substring (the populate step never changes the
name). -/
theorem get_item_details_name_matches_query (m : Mapping) (searchData : CargoEnvelope)
    (image_urls : Row) (inp : PopulateInput) (name : Str) (it : Item)
    (h : get_item_details m searchData image_urls inp name = some it) :
    pyLower it.name = pyLower name ∨ pyIn (pyLower name) (pyLower it.name) = true := by
  simp only [get_item_details] at h
  cases he : (query_items_from searchData image_urls).isEmpty
  · rw [he] at h
    simp only [Bool.false_eq_true, if_false] at h
    cases hf : (query_items_from searchData image_urls).find?
        (fun it => pyLower it.name = pyLower name) with
    | some target =>
      rw [hf] at h
      have hp := List.find?_some hf
      simp only [decide_eq_true_eq] at hp
      have : it = populate_item_details m inp target := by
        simpa using h.symm
      left
      rw [this, populate_preserves_name, hp]
    | none =>
      rw [hf] at h
      cases hf2 : (query_items_from searchData image_urls).find?
          (fun it => pyIn (pyLower name) (pyLower it.name)) with
      | some target =>
        rw [hf2] at h
        have hp := List.find?_some hf2
        have : it = populate_item_details m inp target := by
          simpa using h.symm
        right
        rw [this, populate_preserves_name, hp]
      | none =>
        rw [hf2] at h
        simp at h
  · rw [he] at h
    simp at h

theorem get_item_details_name_matches_query_witness :
    pyLower (populate_item_details [] samplePopInput (mkItem [] sampleSearchRow)).name
        = pyLower (chars "star") ∨
    pyIn (pyLower (chars "star"))
      (pyLower (populate_item_details [] samplePopInput (mkItem [] sampleSearchRow)).name) = true :=
  get_item_details_name_matches_query [] ⟨false, [sampleSearchRow]⟩ []
    samplePopInput (chars "star") _ (by decide)

/-!  ## Claim C7  -/

set_option maxRecDepth 100000 in
/-- C7 counterexample: a stat whose value is the literal zero string is
NOT always omitted from the rendered output: the specially formatted keys
(here `armour`, handled by the fixed format map) are rendered even when
their value is `"0"`, so the rendered message contains the line
`Armour: 0`. -/
theorem format_content_zero_stat_rendered_counterexample :
    pyIn (chars "Armour: 0")
      (format_content (fun v => v) (wiki_url_for (chars "Test Ring"))
        sampleZeroArmourItem false) = true := by
  decide

/-- C7 amended: only the generic leftover-stat loop filters values: a stat
reaching that loop with an empty or literal-zero value produces no rendered
line (removing it from the mapping leaves the loop's output unchanged). -/
theorem leftover_lines_omit_empty_and_zero (ds1 ds2 : Row) (p : Str × Str)
    (h : p.2 = [] ∨ p.2 = chars "0") :
    leftoverLines (ds1 ++ p :: ds2) = leftoverLines (ds1 ++ ds2) := by
  unfold leftoverLines
  have hk : leftoverKeep p = false := by
    rcases h with h | h <;> simp [leftoverKeep, h, pyTruthy]
  simp [List.filter_append, List.filter_cons, hk]

theorem leftover_lines_omit_empty_and_zero_witness :
    leftoverLines [(chars "quality", chars "20"), (chars "ward", chars "0")] =
      leftoverLines [(chars "quality", chars "20")] :=
  leftover_lines_omit_empty_and_zero [(chars "quality", chars "20")] []
    (chars "ward", chars "0") (Or.inr rfl)

/-!  ## Claim C2  -/

theorem rangeMatch_eq_some {s rest : Str} (h : rangeMatch s = some rest) :
    ∃ d1 d2, (∀ c ∈ d1, c.isDigit = true) ∧ (∀ c ∈ d2, c.isDigit = true) ∧
      s = '(' :: (d1 ++ '-' :: (d2 ++ ')' :: rest)) := by
  cases s with
  | nil => simp [rangeMatch] at h
  | cons c r =>
    simp only [rangeMatch] at h
    by_cases hc : c = '('
    · rw [if_pos hc] at h
      by_cases hd1 : (r.takeWhile Char.isDigit).isEmpty = true
      · rw [if_pos hd1] at h; exact absurd h (by simp)
      · rw [if_neg hd1] at h
        cases hdr : r.dropWhile Char.isDigit with
        | nil => rw [hdr] at h; exact absurd h (by simp)
        | cons c1 r2 =>
          rw [hdr] at h
          dsimp only at h
          by_cases hc1 : c1 = '-'
          · rw [if_pos hc1] at h
            by_cases hd2 : (r2.takeWhile Char.isDigit).isEmpty = true
            · rw [if_pos hd2] at h; exact absurd h (by simp)
            · rw [if_neg hd2] at h
              cases hdr2 : r2.dropWhile Char.isDigit with
              | nil => rw [hdr2] at h; exact absurd h (by simp)
              | cons c3 r4 =>
                rw [hdr2] at h
                dsimp only at h
                by_cases hc3 : c3 = ')'
                · rw [if_pos hc3] at h
                  have hrest : r4 = rest := by simpa using h
                  subst hrest
                  subst hc
                  subst hc1
                  subst hc3
                  refine ⟨r.takeWhile Char.isDigit, r2.takeWhile Char.isDigit,
                    fun x hm => List.mem_takeWhile_imp hm,
                    fun x hm => List.mem_takeWhile_imp hm, ?_⟩
                  have h1 : r.takeWhile Char.isDigit ++ r.dropWhile Char.isDigit = r :=
                    List.takeWhile_append_dropWhile Char.isDigit r
                  have h2 : r2.takeWhile Char.isDigit ++ r2.dropWhile Char.isDigit = r2 :=
                    List.takeWhile_append_dropWhile Char.isDigit r2
                  rw [hdr] at h1
                  rw [hdr2] at h2
                  rw [h2, h1]
                · rw [if_neg hc3] at h; exact absurd h (by simp)
          · rw [if_neg hc1] at h; exact absurd h (by simp)
    · rw [if_neg hc] at h; exact absurd h (by simp)

theorem rangeMatch_length_lt {s rest : Str} (h : rangeMatch s = some rest) :
    rest.length < s.length := by
  obtain ⟨d1, d2, -, -, hs⟩ := rangeMatch_eq_some h
  rw [hs]
  simp [List.length_append]
  omega

theorem hash_mem_reSubRangeF (v : Str) :
    ∀ fuel s, s.length ≤ fuel → '#' ∈ s → '#' ∈ reSubRangeF v fuel s := by
  intro fuel
  induction fuel with
  | zero =>
    intro s hl hm
    have hs : s = [] := List.eq_nil_of_length_eq_zero (Nat.le_zero.mp hl)
    subst hs
    simp at hm
  | succ fuel ih =>
    intro s hl hm
    cases s with
    | nil => simp at hm
    | cons c cs =>
      cases hr : rangeMatch (c :: cs) with
      | some rest =>
        simp only [reSubRangeF, hr]
        obtain ⟨d1, d2, hd1, hd2, hs⟩ := rangeMatch_eq_some hr
        have hrest : '#' ∈ rest := by
          rw [hs] at hm
          simp only [List.mem_cons, List.mem_append] at hm
          rcases hm with h | h | h | h | h | h
          · exact absurd h (by decide)
          · exact absurd (hd1 _ h) (by decide)
          · exact absurd h (by decide)
          · exact absurd (hd2 _ h) (by decide)
          · exact absurd h (by decide)
          · exact h
        have hlen : rest.length ≤ fuel := by
          have h2 := rangeMatch_length_lt hr
          simp only [List.length_cons] at h2 hl
          omega
        exact List.mem_append_right v (ih rest hlen hrest)
      | none =>
        simp only [reSubRangeF, hr]
        rcases List.mem_cons.mp hm with h | h
        · rw [h]
          exact List.mem_cons_self c _
        · have hlen : cs.length ≤ fuel := by
            simp only [List.length_cons] at hl
            omega
          exact List.mem_cons_of_mem c (ih cs hlen h)

theorem infix_reSubRangeF_of_hasRange (v : Str) :
    ∀ fuel fuel2 s, s.length ≤ fuel → s.length ≤ fuel2 →
      hasRangeTokenF fuel s = true → v <:+: reSubRangeF v fuel2 s := by
  intro fuel
  induction fuel with
  | zero =>
    intro fuel2 s hl hl2 hh
    have hs : s = [] := List.eq_nil_of_length_eq_zero (Nat.le_zero.mp hl)
    subst hs
    simp [hasRangeTokenF] at hh
  | succ fuel ih =>
    intro fuel2 s hl hl2 hh
    cases s with
    | nil => simp [hasRangeTokenF] at hh
    | cons c cs =>
      cases fuel2 with
      | zero => simp at hl2
      | succ f2 =>
        cases hr : rangeMatch (c :: cs) with
        | some rest =>
          simp only [reSubRangeF, hr]
          exact (List.prefix_append v (reSubRangeF v f2 rest)).isInfix
        | none =>
          simp only [reSubRangeF, hr]
          have hh' : hasRangeTokenF fuel cs = true := by
            simp only [hasRangeTokenF, hr, Option.isSome_none, Bool.false_or] at hh
            exact hh
          have hcs : cs.length ≤ fuel := by
            simp only [List.length_cons] at hl
            omega
          have hcs2 : cs.length ≤ f2 := by
            simp only [List.length_cons] at hl2
            omega
          exact List.infix_cons (ih f2 cs hcs hcs2 hh')

theorem replaceHash_append (v a b : Str) :
    replaceHash v (a ++ b) = replaceHash v a ++ replaceHash v b := by
  induction a with
  | nil => rfl
  | cons c cs ih => simp [replaceHash, ih]

theorem hash_not_mem_replaceHash (v s : Str) (hv : '#' ∉ v) : '#' ∉ replaceHash v s := by
  induction s with
  | nil => simp [replaceHash]
  | cons c cs ih =>
    simp only [replaceHash, List.mem_append]
    rintro (h | h)
    · by_cases hc : c = '#'
      · rw [if_pos hc] at h
        exact hv h
      · rw [if_neg hc] at h
        simp at h
        exact hc h.symm
    · exact ih h

theorem replaceHash_self (v : Str) : ∀ s : Str, '#' ∉ s → replaceHash v s = s := by
  intro s
  induction s with
  | nil => intro _; rfl
  | cons c cs ih =>
    intro hs
    rw [List.mem_cons, not_or] at hs
    simp only [replaceHash]
    rw [if_neg (fun h => hs.1 h.symm)]
    rw [ih hs.2]
    rfl

theorem infix_replaceHash_of_hash_mem (v : Str) :
    ∀ s : Str, '#' ∈ s → v <:+: replaceHash v s := by
  intro s
  induction s with
  | nil => intro h; simp at h
  | cons c cs ih =>
    intro hs
    by_cases hc : c = '#'
    · simp only [replaceHash, if_pos hc]
      exact (List.prefix_append v (replaceHash v cs)).isInfix
    · simp only [replaceHash, if_neg hc, List.singleton_append]
      have hs' : '#' ∈ cs := by
        rcases List.mem_cons.mp hs with h | h
        · exact absurd h.symm hc
        · exact h
      exact List.infix_cons (ih hs')

theorem linkMatchCapture_eq_some {r cap rest : Str}
    (h : linkMatchCapture r = some (cap, rest)) : r = cap ++ ']' :: ']' :: rest := by
  unfold linkMatchCapture at h
  by_cases hd : (r.takeWhile (fun c => c != ']')).isEmpty = true
  · rw [if_pos hd] at h
    exact absurd h (by simp)
  · rw [if_neg hd] at h
    cases hdr : r.dropWhile (fun c => c != ']') with
    | nil =>
      rw [hdr] at h
      exact absurd h (by simp)
    | cons c1 r3 =>
      rw [hdr] at h
      dsimp only at h
      by_cases hc1 : c1 = ']'
      · rw [if_pos hc1] at h
        cases r3 with
        | nil => exact absurd h (by simp)
        | cons c2 r4 =>
          dsimp only at h
          by_cases hc2 : c2 = ']'
          · rw [if_pos hc2] at h
            simp only [Option.some.injEq, Prod.mk.injEq] at h
            obtain ⟨h1, h2⟩ := h
            subst h1
            subst h2
            subst hc1
            subst hc2
            have hr := List.takeWhile_append_dropWhile (fun c => c != ']') r
            rw [hdr] at hr
            exact hr.symm
          · rw [if_neg hc2] at h
            exact absurd h (by simp)
      · rw [if_neg hc1] at h
        exact absurd h (by simp)

theorem linkMatch_eq_some {s cap rest : Str} (h : linkMatch s = some (cap, rest)) :
    (∀ c ∈ cap, c ∈ s) ∧ (∀ c ∈ rest, c ∈ s) ∧ rest.length < s.length := by
  cases s with
  | nil => simp [linkMatch] at h
  | cons c0 t =>
    simp only [linkMatch] at h
    by_cases hc0 : c0 = '['
    · rw [if_pos hc0] at h
      cases t with
      | nil => exact absurd h (by simp)
      | cons c1 r =>
        dsimp only at h
        by_cases hc1 : c1 = '['
        · rw [if_pos hc1] at h
          subst hc0
          subst hc1
          cases hdw : r.dropWhile (fun c => c != '|' && c != ']') with
          | nil =>
            rw [hdw] at h
            dsimp only at h
            have hr := linkMatchCapture_eq_some h
            refine ⟨?_, ?_, ?_⟩
            · intro c hm
              rw [hr]
              simp [hm]
            · intro c hm
              rw [hr]
              simp [hm]
            · rw [hr]
              simp [List.length_append]
              omega
          | cons cg r2 =>
            rw [hdw] at h
            dsimp only at h
            by_cases hcg : cg = '|'
            · rw [if_pos hcg] at h
              cases hcap : linkMatchCapture r2 with
              | some res =>
                rw [hcap] at h
                dsimp only at h
                obtain ⟨rc, rr⟩ := res
                simp only [Option.some.injEq, Prod.mk.injEq] at h
                obtain ⟨h1, h2⟩ := h
                subst h1
                subst h2
                have hr2 := linkMatchCapture_eq_some hcap
                have hpre := List.takeWhile_append_dropWhile (fun c => c != '|' && c != ']') r
                rw [hdw] at hpre
                subst hcg
                refine ⟨?_, ?_, ?_⟩
                · intro c hm
                  rw [← hpre, hr2]
                  simp [hm]
                · intro c hm
                  rw [← hpre, hr2]
                  simp [hm]
                · rw [← hpre, hr2]
                  simp [List.length_append]
                  omega
              | none =>
                rw [hcap] at h
                dsimp only at h
                have hr := linkMatchCapture_eq_some h
                refine ⟨?_, ?_, ?_⟩
                · intro c hm
                  rw [hr]
                  simp [hm]
                · intro c hm
                  rw [hr]
                  simp [hm]
                · rw [hr]
                  simp [List.length_append]
                  omega
            · rw [if_neg hcg] at h
              have hr := linkMatchCapture_eq_some h
              refine ⟨?_, ?_, ?_⟩
              · intro c hm
                rw [hr]
                simp [hm]
              · intro c hm
                rw [hr]
                simp [hm]
              · rw [hr]
                simp [List.length_append]
                omega
        · rw [if_neg hc1] at h
          exact absurd h (by simp)
    · rw [if_neg hc0] at h
      exact absurd h (by simp)

theorem mem_of_mem_wikiCleanupF :
    ∀ fuel s c, c ∈ wikiCleanupF fuel s → c ∈ s := by
  intro fuel
  induction fuel with
  | zero =>
    intro s c h
    cases s with
    | nil => simp [wikiCleanupF] at h
    | cons a cs => exact h
  | succ fuel ih =>
    intro s c h
    cases s with
    | nil => simp [wikiCleanupF] at h
    | cons a cs =>
      cases hl : linkMatch (a :: cs) with
      | some pr =>
        obtain ⟨cap, rest⟩ := pr
        rw [wikiCleanupF, hl] at h
        rcases List.mem_append.mp h with h1 | h1
        · exact (linkMatch_eq_some hl).1 c h1
        · exact (linkMatch_eq_some hl).2.1 c (ih rest c h1)
      | none =>
        rw [wikiCleanupF, hl] at h
        rcases List.mem_cons.mp h with h1 | h1
        · rw [h1]
          exact List.mem_cons_self a _
        · exact List.mem_cons_of_mem a (ih cs c h1)

set_option maxRecDepth 40000 in
/-- C2 counterexample: the claim fails on two adversarial templates with a
single observation whose min equals max (value `"2"`).  On the template
`(1-(1-2))` the single left-to-right substitution pass replaces the inner
token and leaves `(1-2)`, which still contains bracketed numeric-range
syntax; on the template `[[(1-2)|x]]` the substituted value is inside
wiki-link markup, and the subsequent link cleanup removes it, so the
rendered text `x` does not contain the value at all. -/
theorem fallback_render_residual_counterexample :
    assembleModText [[(chars "min", chars "2"), (chars "max", chars "2")]]
        (chars "(1-(1-2))") = chars "(1-2)" ∧
    hasRangeToken (assembleModText [[(chars "min", chars "2"), (chars "max", chars "2")]]
        (chars "(1-(1-2))")) = true ∧
    assembleModText [[(chars "min", chars "2"), (chars "max", chars "2")]]
        (chars "[[(1-2)|x]]") = chars "x" ∧
    pyIn (chars "2") (assembleModText [[(chars "min", chars "2"), (chars "max", chars "2")]]
        (chars "[[(1-2)|x]]")) = false := by
  decide

/-- C2 amended: for a template rendered by the fallback path with a single
observation whose min equals max (a non-empty all-digit value), the
substitution step replaces the range tokens matched in one left-to-right
pass and every `#` with the value: no `#` survives into the rendered text,
and the substituted text contains the value whenever the template had a
range token or a `#`.  (What the counterexample forces to drop: the
single-pass substitution can leave residual bracket syntax when a
replacement creates a new range token, and the later wiki-link cleanup can
remove the substituted value when the token sits inside link markup.) -/
theorem fallback_substitution_amended (t v : Str) (stat : Row)
    (hmin : rowGet stat (chars "min") = some v)
    (hmax : rowGet stat (chars "max") = some v)
    (hv : v ≠ []) (hd : ∀ c ∈ v, c.isDigit = true) :
    ('#' ∉ assembleModText [stat] t) ∧
    (hasRangeToken t = true → v <:+: applyStat t stat) ∧
    ('#' ∈ t → v <:+: applyStat t stat) := by
  have hvh : '#' ∉ v := by
    intro hm
    exact absurd (hd '#' hm) (by decide)
  have happ : applyStat t stat = replaceHash v (reSubRange v t) := by
    unfold applyStat
    rw [hmin, hmax]
    have hpt : pyTruthy v = true := by
      simp [pyTruthy, List.isEmpty_iff, hv]
    simp [hpt]
  refine ⟨?_, ?_, ?_⟩
  · intro hm
    have hm' : '#' ∈ wikiCleanupF (applyStat t stat).length (applyStat t stat) := hm
    have h1 : '#' ∈ applyStat t stat := mem_of_mem_wikiCleanupF _ _ '#' hm'
    rw [happ] at h1
    exact hash_not_mem_replaceHash v (reSubRange v t) hvh h1
  · intro hh
    rw [happ]
    have h1 : v <:+: reSubRange v t :=
      infix_reSubRangeF_of_hasRange v t.length t.length t le_rfl le_rfl hh
    obtain ⟨a, b, hab⟩ := h1
    rw [← hab, replaceHash_append, replaceHash_append, replaceHash_self v v hvh]
    exact ⟨replaceHash v a, replaceHash v b, by rw [List.append_assoc]⟩
  · intro hm
    rw [happ]
    have h1 : '#' ∈ reSubRange v t := hash_mem_reSubRangeF v t.length t le_rfl hm
    exact infix_replaceHash_of_hash_mem v (reSubRange v t) h1

theorem fallback_substitution_amended_witness :
    ('#' ∉ assembleModText [[(chars "min", chars "3"), (chars "max", chars "3")]]
        (chars "Adds # to (1-5) damage")) ∧
    chars "3" <:+: applyStat (chars "Adds # to (1-5) damage")
        [(chars "min", chars "3"), (chars "max", chars "3")] :=
  ⟨(fallback_substitution_amended (chars "Adds # to (1-5) damage") (chars "3")
      [(chars "min", chars "3"), (chars "max", chars "3")] rfl rfl (by decide) (by decide)).1,
   (fallback_substitution_amended (chars "Adds # to (1-5) damage") (chars "3")
      [(chars "min", chars "3"), (chars "max", chars "3")] rfl rfl (by decide) (by decide)).2.2
     (by decide)⟩
